import Mathlib

/-!
Verification of the ASFMLogger Python wrapper
(`src/wrappers/python/asfm_logger.py`).

The development shallowly embeds the in-process bounded log buffer of
`ASFMLoggerPython` and its derived views: the six ingestion calls that funnel
into `_log_with_component`, the `get_local_logs` query, `get_log_statistics`,
`export_logs_to_file`, and `enable_real_time_monitoring`'s polling loop.
Python exceptions are modelled with `Except`; the mutable `_local_queue` is
threaded explicitly as a `List Event`; Python `datetime` values are records of
their fields; Python float arithmetic in the statistics is modelled over `Rat`.
-/

namespace ASFM

/-- Embeds Python `str.upper()` for the ASCII payloads used by the logger
(level names): uppercases every character. -/
def pyUpper (s : String) : String := String.mk (s.data.map Char.toUpper)

/-- Embeds Python `str.lower()` for the ASCII payloads used by the logger
(format names): lowercases every character. -/
def pyLower (s : String) : String := String.mk (s.data.map Char.toLower)

/-- A Python `datetime.now()` capture: the fields `strftime` renders.
`microsecond` is the `%f` field, `0 ≤ microsecond < 10^6` in CPython. -/
structure PyTime where
  year : Nat
  month : Nat
  day : Nat
  hour : Nat
  minute : Nat
  second : Nat
  microsecond : Nat
  deriving DecidableEq

/-- The decimal digit character for `d % 10` (`strftime` renders fields as
zero-padded decimal digits). -/
def digitChar (d : Nat) : Char := Char.ofNat (48 + d % 10)

/-- Two-digit zero-padded decimal rendering (`%m`, `%d`, `%H`, `%M`, `%S`). -/
def pad2 (n : Nat) : List Char := [digitChar (n / 10), digitChar n]

/-- Four-digit zero-padded decimal rendering (`%Y`). -/
def pad4 (n : Nat) : List Char :=
  [digitChar (n / 1000), digitChar (n / 100), digitChar (n / 10), digitChar n]

/-- Three-digit zero-padded decimal rendering (milliseconds). -/
def pad3 (n : Nat) : List Char := [digitChar (n / 100), digitChar (n / 10), digitChar n]

/-- Six-digit zero-padded decimal rendering (`%f`, microseconds). -/
def pad6 (n : Nat) : List Char :=
  [digitChar (n / 100000), digitChar (n / 10000), digitChar (n / 1000),
   digitChar (n / 100), digitChar (n / 10), digitChar n]

/-- The `"%Y-%m-%d %H:%M:%S"` part of the timestamp format of
`_log_with_component`. -/
def dateTimePrefix (t : PyTime) : List Char :=
  pad4 t.year ++ ('-' :: pad2 t.month) ++ ('-' :: pad2 t.day) ++
    (' ' :: pad2 t.hour) ++ (':' :: pad2 t.minute) ++ (':' :: pad2 t.second)

/-- `datetime.now().strftime("%Y-%m-%d %H:%M:%S.%f")`: date-time prefix, a
dot, then the six microsecond digits. -/
def strftimeChars (t : PyTime) : List Char :=
  dateTimePrefix t ++ ('.' :: pad6 t.microsecond)

/-- The timestamp string stored with every event:
`datetime.now().strftime("%Y-%m-%d %H:%M:%S.%f")[:-3]` — the `strftime`
rendering with its last three characters sliced off (Python `[:-3]`). -/
def storedTimestamp (t : PyTime) : String :=
  String.mk ((strftimeChars t).take ((strftimeChars t).length - 3))

/-- Rendering of a capture time at millisecond resolution: the same date-time
prefix followed by the three digits of `microsecond / 1000`.  Written from the
spec's wording to compare against `storedTimestamp`. -/
def millisTimestampChars (t : PyTime) : List Char :=
  dateTimePrefix t ++ ('.' :: pad3 (t.microsecond / 1000))

/-- One entry of `_local_queue`: the dictionary appended by
`_log_with_component`. -/
structure Event where
  timestamp : String
  level : String
  component : String
  function : String
  message : String
  formatted_message : String
  deriving DecidableEq

instance : Inhabited Event :=
  ⟨{ timestamp := "", level := "", component := "", function := "",
     message := "", formatted_message := "" }⟩

/-- The event dictionary built by `_log_with_component`: timestamp captured
via `storedTimestamp`, `level.upper()`, and the formatted message
`f"[{timestamp}] [{component}] {message}"`. -/
def mkEvent (t : PyTime) (level msg comp fn : String) : Event :=
  { timestamp := storedTimestamp t
    level := pyUpper level
    component := comp
    function := fn
    message := msg
    formatted_message :=
      "[" ++ storedTimestamp t ++ "] [" ++ comp ++ "] " ++ msg }

/-- The local queue capacity: `if len(self._local_queue) > 1000: ... pop(0)`. -/
def CAPACITY : Nat := 1000

/-- The queue mutation of `_log_with_component`: append the event, then if the
length exceeds `CAPACITY` pop the single front (oldest) entry. -/
def pushBounded (q : List Event) (e : Event) : List Event :=
  let q' := q ++ [e]
  if CAPACITY < q'.length then q'.tail else q'

/-- The six level-specific ingestion methods, as the level strings each one
passes to `_log_with_component`. -/
inductive LevelTag where
  | trc
  | dbg
  | inf
  | wrn
  | err
  | crt
  deriving DecidableEq

/-- The `level` argument each ingestion method passes:
`trace`/`debug`/`info`/`warn`/`error`/`critical` pass their own name. -/
def levelName : LevelTag → String
  | LevelTag.trc => "trace"
  | LevelTag.dbg => "debug"
  | LevelTag.inf => "info"
  | LevelTag.wrn => "warn"
  | LevelTag.err => "error"
  | LevelTag.crt => "critical"

/-- One call to one of the six ingestion methods: the capture time the call
observes and the arguments it passes. -/
structure Call where
  time : PyTime
  tag : LevelTag
  message : String
  component : String
  fn : String

/-- The event a call appends to the local queue. -/
def eventOfCall (c : Call) : Event :=
  mkEvent c.time (levelName c.tag) c.message c.component c.fn

/-- The queue mutation a single ingestion call performs. -/
def applyCall (q : List Event) (c : Call) : List Event :=
  pushBounded q (eventOfCall c)

/-- The local queue after a sequence of ingestion calls, starting from the
empty queue of a fresh logger. -/
def runCalls (cs : List Call) : List Event := cs.foldl applyCall []

/-- The body of `_log_with_component` with its exception structure made
explicit.  The two places a Python exception can arise inside the outer `try`
are modelled by the flags `sinkRaises` (the ctypes call to the C++ `log`
function, wrapped in its own bare `try/except: pass`) and `outputRaises`
(`_output_to_python_logging`, which runs after the queue append).  An error
value carries the queue as it stands when the exception is raised, since the
append is not rolled back. -/
def logWithComponentBody (sinkRaises outputRaises : Bool) (t : PyTime)
    (level msg comp fn : String) (q : List Event) :
    Except (String × List Event) (List Event) :=
  let sinkOutcome : Except String Unit :=
    if sinkRaises then Except.error "sink failure" else Except.ok ()
  -- inner bare `except: pass`: any sink outcome is discarded
  match sinkOutcome with
  | Except.error _ => doAppend
  | Except.ok _ => doAppend
where
  doAppend : Except (String × List Event) (List Event) :=
    let q1 := pushBounded q (mkEvent t level msg comp fn)
    if outputRaises then Except.error ("output failure", q1) else Except.ok q1

/-- `_log_with_component` as seen by its caller: the body runs under
`try ... except Exception as e: print(...)`, so every error is caught,
printed, and the method returns normally with the queue as mutated. -/
def logWithComponentCaught (sinkRaises outputRaises : Bool) (t : PyTime)
    (level msg comp fn : String) (q : List Event) :
    Except String (List Event) :=
  match logWithComponentBody sinkRaises outputRaises t level msg comp fn q with
  | Except.ok q' => Except.ok q'
  | Except.error (_, q') => Except.ok q'

/-- The `trace` method: delegates to `_log_with_component("trace", ...)`. -/
def traceE (sinkRaises outputRaises : Bool) (t : PyTime) (q : List Event)
    (msg comp fn : String) : Except String (List Event) :=
  logWithComponentCaught sinkRaises outputRaises t "trace" msg comp fn q

/-- The `debug` method: delegates to `_log_with_component("debug", ...)`. -/
def debugE (sinkRaises outputRaises : Bool) (t : PyTime) (q : List Event)
    (msg comp fn : String) : Except String (List Event) :=
  logWithComponentCaught sinkRaises outputRaises t "debug" msg comp fn q

/-- The `info` method: delegates to `_log_with_component("info", ...)`. -/
def infoE (sinkRaises outputRaises : Bool) (t : PyTime) (q : List Event)
    (msg comp fn : String) : Except String (List Event) :=
  logWithComponentCaught sinkRaises outputRaises t "info" msg comp fn q

/-- The `warn` method: delegates to `_log_with_component("warn", ...)`. -/
def warnE (sinkRaises outputRaises : Bool) (t : PyTime) (q : List Event)
    (msg comp fn : String) : Except String (List Event) :=
  logWithComponentCaught sinkRaises outputRaises t "warn" msg comp fn q

/-- The `error` method: delegates to `_log_with_component("error", ...)`. -/
def errorE (sinkRaises outputRaises : Bool) (t : PyTime) (q : List Event)
    (msg comp fn : String) : Except String (List Event) :=
  logWithComponentCaught sinkRaises outputRaises t "error" msg comp fn q

/-- The `critical` method: delegates to `_log_with_component("critical", ...)`. -/
def criticalE (sinkRaises outputRaises : Bool) (t : PyTime) (q : List Event)
    (msg comp fn : String) : Except String (List Event) :=
  logWithComponentCaught sinkRaises outputRaises t "critical" msg comp fn q

/-- Python `l[start:]` slicing with an integer start, as used by
`get_local_logs`: a non-negative start drops that many leading elements; a
negative start counts from the end, clamped at the front. -/
def pySliceFrom (start : Int) (l : List Event) : List Event :=
  if start < 0 then l.drop ((l.length + start : Int)).toNat
  else l.drop start.toNat

/-- The filtering stage of `get_local_logs`: an exact-match component filter
is applied when `component` is a non-empty (truthy) string, then a level
filter comparing the stored level against `level.upper()` when `level` is
non-empty. -/
def filteredLogs (q : List Event) (component level : String) : List Event :=
  let filtered1 :=
    if component ≠ "" then q.filter (fun log => log.component == component)
    else q
  if level ≠ "" then filtered1.filter (fun log => log.level == pyUpper level)
  else filtered1

/-- `get_local_logs(component, level, limit)`: filter the queue, then return
`filtered_logs[-limit:] if filtered_logs else []`. -/
def get_local_logs (q : List Event) (component level : String)
    (limit : Int) : List Event :=
  let filtered := filteredLogs q component level
  if filtered = [] then [] else pySliceFrom (-limit) filtered

/-- The query contract as the spec words it: keep the events passing the
conjunctive filters (empty component filter passes all; level compared
case-insensitively), then take the last `limit` elements of the filtered,
insertion-ordered sequence.  Written from the spec to compare against
`get_local_logs`. -/
def querySpec (q : List Event) (component level : String) (limit : Int) :
    List Event :=
  let kept := q.filter (fun e =>
    (component == "" || e.component == component) &&
    (level == "" || pyUpper e.level == pyUpper level))
  kept.drop (kept.length - limit.toNat)

/-- Python dict counting step: `counts[key] = counts.get(key, 0) + 1`,
on an insertion-ordered association list. -/
def bump (m : List (String × Nat)) (k : String) : List (String × Nat) :=
  match m with
  | [] => [(k, 1)]
  | (k', v) :: rest => if k' = k then (k', v + 1) :: rest else (k', v) :: bump rest k

/-- Sum of the values of a counting dictionary. -/
def sumVals (m : List (String × Nat)) : Nat := (m.map Prod.snd).sum

/-- The dictionary returned by `get_log_statistics`.  On an empty queue the
code returns `{"total_messages": 0}` only, so every other field is an
`Option`, `none` meaning the key is absent. -/
structure Stats where
  total_messages : Nat
  level_distribution : Option (List (String × Nat))
  component_distribution : Option (List (String × Nat))
  time_range_seconds : Option Rat
  messages_per_second : Option Rat
  deriving DecidableEq

/-- `get_log_statistics()`: level and component counts, the time range
between the parsed timestamps of the first and last entries (0 when fewer
than two entries), and `len(logs) / max(time_range, 1)`.  The
`datetime.strptime` parse of a stored timestamp string into a point on the
time line (in seconds) is abstracted as the parameter `parseTs`; Python float
arithmetic is modelled over `Rat`. -/
def get_log_statistics (parseTs : String → Rat) (logs : List Event) : Stats :=
  match logs with
  | [] =>
    { total_messages := 0
      level_distribution := none
      component_distribution := none
      time_range_seconds := none
      messages_per_second := none }
  | h :: t =>
    let level_counts := (h :: t).foldl (fun m log => bump m log.level) []
    let component_counts := (h :: t).foldl (fun m log => bump m log.component) []
    let time_range : Rat :=
      if 2 ≤ (h :: t).length then
        parseTs (((h :: t).getLast (List.cons_ne_nil h t)).timestamp) -
          parseTs h.timestamp
      else 0
    { total_messages := (h :: t).length
      level_distribution := some level_counts
      component_distribution := some component_counts
      time_range_seconds := some time_range
      messages_per_second := some (((h :: t).length : Rat) / max time_range 1) }

/-- The content the export writes to the destination file: which serializer
ran and over which snapshot.  The serialized text itself is irrelevant to the
claims, so content is modelled by format and snapshot. -/
inductive FileContent where
  | json (logs : List Event)
  | csv (logs : List Event)
  | txt (logs : List Event)
  deriving DecidableEq

/-- The message `export_logs_to_file` prints when it returns: either
`f"Exported {len(logs)} log messages to {file_path}"` or
`f"Error exporting logs: {e}"`. -/
inductive ExportMsg where
  | success (count : Nat)
  | failure (err : String)
  deriving DecidableEq

/-- Outcome of one `export_logs_to_file` call: the destination file content
afterwards (`none` = the file does not exist) and the message printed. -/
structure ExportResult where
  dest : Option FileContent
  msg : ExportMsg
  deriving DecidableEq

/-- `export_logs_to_file(file_path, format)` over a snapshot of the queue.
`writable` says whether opening the destination for writing succeeds; when it
fails, `open` raises before anything is written and the outer
`except Exception` prints the error message.  `format.lower()` selects the
serializer; the `csv` branch only opens the file when the snapshot is
non-empty (`if logs:`); a format matching none of `json`/`csv`/`txt` falls
through every branch and still prints the success message. -/
def export_logs_to_file (writable : Bool) (dest : Option FileContent)
    (logs : List Event) (format : String) : ExportResult :=
  let fmt := pyLower format
  if fmt = "json" then
    if writable then
      { dest := some (FileContent.json logs), msg := ExportMsg.success logs.length }
    else { dest := dest, msg := ExportMsg.failure "unwritable destination" }
  else if fmt = "csv" then
    if logs = [] then { dest := dest, msg := ExportMsg.success logs.length }
    else if writable then
      { dest := some (FileContent.csv logs), msg := ExportMsg.success logs.length }
    else { dest := dest, msg := ExportMsg.failure "unwritable destination" }
  else if fmt = "txt" then
    if writable then
      { dest := some (FileContent.txt logs), msg := ExportMsg.success logs.length }
    else { dest := dest, msg := ExportMsg.failure "unwritable destination" }
  else { dest := dest, msg := ExportMsg.success logs.length }

/-- `enable_real_time_monitoring`, viewed through the number of background
monitoring threads the logger has started: the method unconditionally
constructs and starts a new daemon thread running `monitoring_loop` — no
flag records that monitoring is already enabled, and the class defines no
disable/stop method. -/
def enable_real_time_monitoring (pollers : Nat) : Nat := pollers + 1

/-- The deliveries made by `monitoring_loop`.  Each element of the schedule is
one poll round that is due (`current_time - last_check_time >= interval`):
the batch of new messages found under the lock, and whether the callback
raises when invoked on that batch.  The loop body runs under
`try ... except Exception: print(...); break`, so the callback is invoked
only when the batch is non-empty and a callback was supplied, and a raising
callback terminates the loop.  The result lists the batches the callback was
invoked on, in order. -/
def monitoring_loop (hasCallback : Bool) :
    List (List Event × Bool) → List (List Event)
  | [] => []
  | (batch, cbRaises) :: rest =>
    if batch ≠ [] ∧ hasCallback = true then
      if cbRaises then [batch]
      else batch :: monitoring_loop hasCallback rest
    else monitoring_loop hasCallback rest

/-- A concrete event for witnesses and counterexamples. -/
def sampleTime : PyTime :=
  { year := 2026, month := 10, day := 12, hour := 1, minute := 2, second := 3,
    microsecond := 123001 }

/-- A concrete event for witnesses and counterexamples. -/
def sampleEvent : Event := mkEvent sampleTime "info" "hello" "Python" ""

/-- A second concrete event for witnesses: different level and component. -/
def sampleEvent2 : Event := mkEvent sampleTime "error" "boom" "DB" "query"

end ASFM

namespace ASFM

/-- Helper: `foldl pushBounded` keeps the last `CAPACITY` elements. -/
theorem foldl_pushBounded_eq_drop (l : List Event) :
    l.foldl pushBounded [] = l.drop (l.length - CAPACITY) := by
  induction l using List.reverseRecOn with
  | nil => simp
  | append_singleton l e ih =>
    rw [List.foldl_append, List.foldl_cons, List.foldl_nil, ih]
    rcases Nat.lt_or_ge l.length CAPACITY with h | h
    · have h0 : l.length - CAPACITY = 0 := by omega
      have h1 : l.length + 1 - CAPACITY = 0 := by omega
      simp [pushBounded, h0, h1]
      intro hc
      omega
    · have hlen : (l.drop (l.length - CAPACITY)).length = CAPACITY := by
        rw [List.length_drop]
        omega
      have hcap : 0 < CAPACITY := by decide
      rw [pushBounded]
      simp only [List.length_append, List.length_singleton, hlen]
      rw [if_pos (by omega)]
      rw [← List.drop_one, List.drop_append_of_le_length (by omega),
        List.drop_drop, List.drop_append_of_le_length (by omega)]
      have harith : l.length - CAPACITY + 1 = l.length + 1 - CAPACITY := by
        omega
      rw [harith]

/-- C1: after any sequence of ingestion calls (trace/debug/info/warn/error/
critical), the local queue holds exactly the most recently inserted
`CAPACITY` (or fewer) events in original insertion order, so its size is
`min(totalRecorded, CAPACITY)`; the eviction at capacity removes the single
oldest entry.  Quantifying over all call sequences covers the state after
each call. -/
theorem record_calls_keep_last_capacity (cs : List Call) :
    runCalls cs = (cs.map eventOfCall).drop (cs.length - CAPACITY) ∧
    (runCalls cs).length = min cs.length CAPACITY := by
  have h1 : runCalls cs = (cs.map eventOfCall).foldl pushBounded [] := by
    rw [runCalls, List.foldl_map]
    rfl
  constructor
  · rw [h1, foldl_pushBounded_eq_drop, List.length_map]
  · rw [h1, foldl_pushBounded_eq_drop, List.length_drop, List.length_map]
    omega

/-- C4: each of the six ingestion calls returns normally, for every message,
component and function argument, every capture time, every queue state, and
regardless of an exception raised by the C++ sink call or by the console
output step: the outer `except Exception` handler recovers every failure, and
the event is appended to the queue in all cases. -/
theorem ingestion_never_raises (sinkRaises outputRaises : Bool) (t : PyTime)
    (q : List Event) (msg comp fn : String) :
    traceE sinkRaises outputRaises t q msg comp fn =
      Except.ok (pushBounded q (mkEvent t "trace" msg comp fn)) ∧
    debugE sinkRaises outputRaises t q msg comp fn =
      Except.ok (pushBounded q (mkEvent t "debug" msg comp fn)) ∧
    infoE sinkRaises outputRaises t q msg comp fn =
      Except.ok (pushBounded q (mkEvent t "info" msg comp fn)) ∧
    warnE sinkRaises outputRaises t q msg comp fn =
      Except.ok (pushBounded q (mkEvent t "warn" msg comp fn)) ∧
    errorE sinkRaises outputRaises t q msg comp fn =
      Except.ok (pushBounded q (mkEvent t "error" msg comp fn)) ∧
    criticalE sinkRaises outputRaises t q msg comp fn =
      Except.ok (pushBounded q (mkEvent t "critical" msg comp fn)) := by
  cases sinkRaises <;> cases outputRaises <;>
    exact ⟨rfl, rfl, rfl, rfl, rfl, rfl⟩

/-- C8 counterexample: `enable_real_time_monitoring` is not idempotent — two
calls on a fresh logger leave two started background pollers, so "at most one
background polling task exists per logger instance" is false. -/
theorem enable_monitoring_not_idempotent :
    enable_real_time_monitoring (enable_real_time_monitoring 0) = 2 ∧
    ¬ enable_real_time_monitoring (enable_real_time_monitoring 0) ≤ 1 := by
  decide

/-- C8 amended: every call to `enable_real_time_monitoring` unconditionally
starts one more background poller — `k` calls on a logger with `n` pollers
leave `n + k` pollers; no idempotence guard and no stop method exist. -/
theorem enable_monitoring_adds_poller (k n : Nat) :
    enable_real_time_monitoring^[k] n = n + k := by
  induction k generalizing n with
  | zero => rfl
  | succ k ih =>
    rw [Function.iterate_succ_apply, ih, enable_real_time_monitoring]
    omega

/-- C10: when the callback raises during a delivery, the monitoring loop
breaks out of `while True` permanently: the deliveries are independent of
every round scheduled after the raising one, so no further callback
invocation ever occurs for that activation. -/
theorem callback_exception_stops_monitoring
    (pre : List (List Event × Bool)) (batch : List Event)
    (rest rest' : List (List Event × Bool)) (hb : batch ≠ []) :
    monitoring_loop true (pre ++ (batch, true) :: rest) =
      monitoring_loop true (pre ++ (batch, true) :: rest') := by
  induction pre with
  | nil =>
    simp only [List.nil_append, monitoring_loop]
    simp [hb]
  | cons hd tl ih =>
    obtain ⟨b, r⟩ := hd
    simp only [List.cons_append, monitoring_loop]
    by_cases hb' : b = []
    · simp [hb', ih]
    · cases r
      · simp [hb', ih]
      · simp [hb']

/-- C10 witness: a concrete schedule whose first round raises — the later
round is never delivered. -/
theorem callback_exception_stops_monitoring_witness :
    monitoring_loop true [([sampleEvent], true), ([sampleEvent], false)] =
      monitoring_loop true [([sampleEvent], true)] :=
  callback_exception_stops_monitoring [] [sampleEvent] [([sampleEvent], false)]
    [] (List.cons_ne_nil _ _)

/-- Helper: a strictly negative Python slice start `-limit` keeps the last
`limit` elements. -/
theorem pySliceFrom_neg (limit : Int) (hlim : 0 < limit) (f : List Event) :
    pySliceFrom (-limit) f = f.drop (f.length - limit.toNat) := by
  rw [pySliceFrom, if_pos (by omega)]
  congr 1
  omega

/-- Helper: the two-stage filter of `get_local_logs` equals the spec's single
conjunctive filter when every stored level is already uppercase (as is the
case for every queue produced by the ingestion calls). -/
theorem filteredLogs_eq_specFilter (q : List Event) (c l : String)
    (hlev : ∀ e ∈ q, pyUpper e.level = e.level) :
    filteredLogs q c l = q.filter (fun e =>
      (c == "" || e.component == c) &&
      (l == "" || pyUpper e.level == pyUpper l)) := by
  simp only [filteredLogs]
  by_cases hc : c = "" <;> by_cases hl : l = ""
  · subst hc; subst hl
    simp
  · subst hc
    rw [if_pos hl, if_neg (by simp)]
    refine List.filter_congr ?_
    intro e he
    have hl' : (l == "") = false := beq_eq_false_iff_ne.mpr hl
    simp [hl', hlev e he]
  · subst hl
    rw [if_pos hc, if_neg (by simp)]
    refine List.filter_congr ?_
    intro e _
    have hc' : (c == "") = false := beq_eq_false_iff_ne.mpr hc
    simp [hc']
  · rw [if_pos hc, if_pos hl, List.filter_filter]
    refine List.filter_congr ?_
    intro e he
    have hc' : (c == "") = false := beq_eq_false_iff_ne.mpr hc
    have hl' : (l == "") = false := beq_eq_false_iff_ne.mpr hl
    simp [hc', hl', hlev e he, Bool.and_comm]

/-- C2: for every queue whose stored levels are canonical (uppercase, as the
ingestion path guarantees) and every positive limit, `get_local_logs` returns
exactly the last `limit` elements of the conjunctively filtered subsequence —
exact match on component, case-insensitive match on level — in insertion
order; a filter matching nothing yields `[]`. -/
theorem get_local_logs_matches_spec (q : List Event) (c l : String)
    (limit : Int) (hlim : 0 < limit)
    (hlev : ∀ e ∈ q, pyUpper e.level = e.level) :
    get_local_logs q c l limit = querySpec q c l limit := by
  have hfilt := filteredLogs_eq_specFilter q c l hlev
  rw [get_local_logs, querySpec]
  simp only [← hfilt]
  by_cases hf : filteredLogs q c l = []
  · rw [if_pos hf, hf, List.drop_nil]
  · rw [if_neg hf, pySliceFrom_neg limit hlim]

/-- C2 witness: a concrete queue, component filter `"Python"`, level filter
`"info"` (lowercase), limit 1. -/
theorem get_local_logs_matches_spec_witness :
    get_local_logs [sampleEvent, sampleEvent2, sampleEvent] "Python" "info" 1 =
      querySpec [sampleEvent, sampleEvent2, sampleEvent] "Python" "info" 1 :=
  get_local_logs_matches_spec [sampleEvent, sampleEvent2, sampleEvent]
    "Python" "info" 1 (by decide) (by decide)

/-- C9: `get_local_logs` with `limit = 0` returns the entire filtered
sequence (the slice `[-0:]` selects everything), and a negative limit `n`
returns all but the first `|n|` filtered elements. -/
theorem limit_zero_or_negative_returns_all (q : List Event) (c l : String) :
    get_local_logs q c l 0 = filteredLogs q c l ∧
    ∀ n : Int, n < 0 →
      get_local_logs q c l n = (filteredLogs q c l).drop (-n).toNat := by
  constructor
  · rw [get_local_logs]
    by_cases hf : filteredLogs q c l = []
    · rw [if_pos hf, hf]
    · rw [if_neg hf, pySliceFrom]
      norm_num
  · intro n hn
    rw [get_local_logs]
    by_cases hf : filteredLogs q c l = []
    · rw [if_pos hf, hf, List.drop_nil]
    · rw [if_neg hf, pySliceFrom, if_neg (by omega)]

/-- C9 witness: limit `-1` on a concrete two-event queue drops the first
filtered element. -/
theorem limit_zero_or_negative_witness :
    get_local_logs [sampleEvent, sampleEvent2] "" "" (-1) =
      (filteredLogs [sampleEvent, sampleEvent2] "" "").drop ((-(-1) : Int)).toNat :=
  (limit_zero_or_negative_returns_all [sampleEvent, sampleEvent2] "" "").2
    (-1) (by decide)

/-- Helper: one counting step adds one to the sum of the dictionary values. -/
theorem sumVals_bump (m : List (String × Nat)) (k : String) :
    sumVals (bump m k) = sumVals m + 1 := by
  induction m with
  | nil => rfl
  | cons hd tl ih =>
    obtain ⟨k', v⟩ := hd
    rw [bump]
    by_cases h : k' = k
    · rw [if_pos h]
      simp [sumVals]
      omega
    · rw [if_neg h]
      simp only [sumVals, List.map_cons, List.sum_cons] at ih ⊢
      omega

/-- Helper: folding the counting step over a list adds the list's length to
the sum of the dictionary values. -/
theorem sumVals_foldl_bump (key : Event → String) (logs : List Event)
    (m : List (String × Nat)) :
    sumVals (logs.foldl (fun acc log => bump acc (key log)) m) =
      sumVals m + logs.length := by
  induction logs generalizing m with
  | nil => simp
  | cons h t ih =>
    rw [List.foldl_cons, ih, sumVals_bump]
    simp
    omega

/-- C3: for every queue, the statistics' level distribution values sum to
`total_messages`, which equals the count of events and the sum of the
component distribution values; an empty queue yields `total_messages = 0`
(with every derived key absent) without error. -/
theorem statistics_sums_consistent (parseTs : String → Rat)
    (logs : List Event) :
    (get_log_statistics parseTs logs).total_messages = logs.length ∧
    sumVals (((get_log_statistics parseTs logs).level_distribution).getD []) =
      (get_log_statistics parseTs logs).total_messages ∧
    sumVals (((get_log_statistics parseTs logs).component_distribution).getD []) =
      (get_log_statistics parseTs logs).total_messages := by
  cases logs with
  | nil => exact ⟨rfl, rfl, rfl⟩
  | cons h t =>
    refine ⟨rfl, ?_, ?_⟩
    · have hsum := sumVals_foldl_bump (fun log => log.level) (h :: t) []
      simp only [sumVals, List.map_nil, List.sum_nil, Nat.zero_add] at hsum
      exact hsum
    · have hsum := sumVals_foldl_bump (fun log => log.component) (h :: t) []
      simp only [sumVals, List.map_nil, List.sum_nil, Nat.zero_add] at hsum
      exact hsum

/-- C6: on every non-empty queue, the statistics report
`messages_per_second = total_messages / max(time_range_seconds, 1)`, where
`time_range_seconds` is the difference between the (parsed) timestamps of the
last and first events and is 0 when the queue holds fewer than two events. -/
theorem statistics_rate_formula (parseTs : String → Rat) (logs : List Event)
    (hne : logs ≠ []) :
    ∃ tr : Rat,
      (get_log_statistics parseTs logs).time_range_seconds = some tr ∧
      (get_log_statistics parseTs logs).messages_per_second =
        some ((logs.length : Rat) / max tr 1) ∧
      (2 ≤ logs.length →
        tr = parseTs ((logs.getLast hne).timestamp) -
          parseTs ((logs.head hne).timestamp)) ∧
      (logs.length < 2 → tr = 0) := by
  cases logs with
  | nil => exact absurd rfl hne
  | cons h t =>
    refine ⟨if 2 ≤ (h :: t).length then
        parseTs (((h :: t).getLast (List.cons_ne_nil h t)).timestamp) -
          parseTs h.timestamp
      else 0, rfl, rfl, ?_, ?_⟩
    · intro h2
      rw [if_pos h2]
      rfl
    · intro h2
      rw [if_neg (by omega)]

/-- C6 witness: a single-event queue under the trivial parse — the time range
is 0 and the rate is `1 / max 0 1 = 1`. -/
theorem statistics_rate_formula_witness :
    (get_log_statistics (fun _ => 0) [sampleEvent]).messages_per_second =
      some 1 := by
  obtain ⟨tr, h1, h2, h3, h4⟩ :=
    statistics_rate_formula (fun _ => 0) [sampleEvent] (List.cons_ne_nil _ _)
  rw [h4 (by decide)] at h2
  rw [h2]
  norm_num

/-- C5 counterexample: exporting one event with the unsupported format
`"xml"` to a writable, non-existent destination writes nothing (the
destination stays absent) yet prints the success message `Exported 1 log
messages`, so the caller is not informed of any failure kind. -/
theorem export_unsupported_format_reports_success :
    (export_logs_to_file true none [sampleEvent] "xml").dest = none ∧
    (export_logs_to_file true none [sampleEvent] "xml").msg =
      ExportMsg.success 1 := by
  decide

/-- C5 amended: an unwritable destination always leaves the destination
untouched, and the error message is printed whenever a write is actually
attempted — format `json` or `txt`, or `csv` with a non-empty snapshot.  Two
failing calls are not reported: `csv` with an empty snapshot skips the file
open (`if logs:`) and prints the success message even on an unwritable
destination, and an unsupported format falls through every branch and prints
the success message.  In every case the destination afterwards either is
untouched or holds the complete serialization of the snapshot in the chosen
format, so no partially written file is ever left in place.  The in-memory
queue is only read (copied) by the export, never modified. -/
theorem export_failure_leaves_destination (writable : Bool)
    (dest : Option FileContent) (logs : List Event) (format : String) :
    (writable = false →
      (export_logs_to_file writable dest logs format).dest = dest) ∧
    (writable = false →
      (pyLower format = "json" ∨ pyLower format = "txt" ∨
        (pyLower format = "csv" ∧ logs ≠ [])) →
      (export_logs_to_file writable dest logs format).msg =
        ExportMsg.failure "unwritable destination") ∧
    (writable = false → pyLower format = "csv" → logs = [] →
      export_logs_to_file writable dest logs format =
        { dest := dest, msg := ExportMsg.success 0 }) ∧
    (pyLower format ≠ "json" → pyLower format ≠ "csv" → pyLower format ≠ "txt" →
      export_logs_to_file writable dest logs format =
        { dest := dest, msg := ExportMsg.success logs.length }) ∧
    ((export_logs_to_file writable dest logs format).dest = dest ∨
      (export_logs_to_file writable dest logs format).dest =
        some (FileContent.json logs) ∨
      (export_logs_to_file writable dest logs format).dest =
        some (FileContent.csv logs) ∨
      (export_logs_to_file writable dest logs format).dest =
        some (FileContent.txt logs)) := by
  refine ⟨?_, ?_, ?_, ?_, ?_⟩
  · intro hw
    subst hw
    rw [export_logs_to_file]
    split_ifs <;> first | rfl | contradiction
  · intro hw hfmt
    subst hw
    rw [export_logs_to_file]
    rcases hfmt with hj | ht | ⟨hc, hne⟩
    · rw [if_pos hj]
      rfl
    · rw [if_neg (by rw [ht]; decide), if_neg (by rw [ht]; decide), if_pos ht]
      rfl
    · rw [if_neg (by rw [hc]; decide), if_pos hc, if_neg hne]
      rfl
  · intro hw hc he
    subst hw
    subst he
    rw [export_logs_to_file]
    rw [if_neg (by rw [hc]; decide), if_pos hc, if_pos rfl]
    rfl
  · intro h1 h2 h3
    rw [export_logs_to_file]
    split_ifs <;> first | rfl | contradiction
  · rw [export_logs_to_file]
    split_ifs <;> simp

/-- C5 amended witness: concrete unwritable-destination calls for `json` and
`CSV` (non-empty snapshot), the unreported `csv`-with-empty-snapshot and
unsupported-format calls. -/
theorem export_failure_leaves_destination_witness :
    (export_logs_to_file false none [sampleEvent] "json").dest = none ∧
    (export_logs_to_file false none [sampleEvent] "CSV").msg =
      ExportMsg.failure "unwritable destination" ∧
    export_logs_to_file false none [] "csv" =
      { dest := none, msg := ExportMsg.success 0 } ∧
    export_logs_to_file true none [sampleEvent] "yaml" =
      { dest := none, msg := ExportMsg.success 1 } :=
  ⟨(export_failure_leaves_destination false none [sampleEvent] "json").1 rfl,
   (export_failure_leaves_destination false none [sampleEvent] "CSV").2.1
     rfl (Or.inr (Or.inr ⟨by decide, by decide⟩)),
   (export_failure_leaves_destination false none [] "csv").2.2.1
     rfl (by decide) rfl,
   (export_failure_leaves_destination true none [sampleEvent] "yaml").2.2.2.1
     (by decide) (by decide) (by decide)⟩

/-- C7 counterexample: two capture times that differ only below the
millisecond (microsecond 123001 vs 123999) are stored with the identical
timestamp string, so the stored timestamp is not the capture-time value at
microsecond resolution. -/
theorem stored_timestamp_drops_microseconds :
    storedTimestamp { sampleTime with microsecond := 123001 } =
      storedTimestamp { sampleTime with microsecond := 123999 } ∧
    ({ sampleTime with microsecond := 123001 } : PyTime) ≠
      { sampleTime with microsecond := 123999 } := by
  decide

/-- C7 amended: the timestamp stored with every event is the capture-time
wall-clock value rendered at millisecond resolution: the `strftime`
rendering with the microsecond field truncated to its leading three digits,
i.e. `microsecond / 1000` as three digits. -/
theorem stored_timestamp_is_millisecond (t : PyTime) :
    storedTimestamp t = String.mk (millisTimestampChars t) := by
  have hpad : pad6 t.microsecond =
      pad3 (t.microsecond / 1000) ++
        [digitChar (t.microsecond / 100), digitChar (t.microsecond / 10),
         digitChar t.microsecond] := by
    simp only [pad6, pad3, List.cons_append, List.nil_append, List.cons.injEq]
    rw [Nat.div_div_eq_div_mul, Nat.div_div_eq_div_mul]
    norm_num
  have hshape : strftimeChars t =
      millisTimestampChars t ++
        [digitChar (t.microsecond / 100), digitChar (t.microsecond / 10),
         digitChar t.microsecond] := by
    rw [strftimeChars, millisTimestampChars, hpad]
    simp
  rw [storedTimestamp, hshape, List.length_append]
  have harith : (millisTimestampChars t).length + 3 - 3 =
      (millisTimestampChars t).length := by omega
  rw [show ([digitChar (t.microsecond / 100), digitChar (t.microsecond / 10),
      digitChar t.microsecond] : List Char).length = 3 from rfl, harith,
    List.take_left]

end ASFM
